import Mathlib

/-!
Verification of the recurring-task instance generator of the task-management
backend (`src/services/recurringTaskService.ts`, transactional version).

Modelling choices (shallow embedding):

* JavaScript `Date` values are always taken at `startOfDay` precision by the
  generator (`startOfDay` is applied to `start_date`, `end_date` and every
  candidate), so a date is modelled as a civil calendar day: a `CDate`
  structure holding year / month / day.  Comparison of `getTime()` values of
  two midnight dates coincides with lexicographic comparison of the civil
  triples, so `isBefore`/`isAfter`/`Set.has` are modelled by the lexicographic
  order and decidable equality on `CDate`.
* `dayNumber` maps a civil day to its day count from the proleptic Gregorian
  origin (0000-03-... counted linearly from year 0); it models the linear
  timestamp line.  `getDay` (JS: 0 = Sunday .. 6 = Saturday) and date-fns
  `differenceInWeeks` (truncated division of the day difference by 7) are
  defined from it.  The constant 6 in `getDay` calibrates the week so that
  1970-01-01 is a Thursday (= 4), as in the real calendar.
* date-fns `addDays`/`addWeeks` add calendar days; `addMonths`/`addYears`
  clamp the day-of-month to the length of the target month (documented
  date-fns behaviour); the native JS `setDate` overflows into the following
  month when given a day beyond the month length, so it is modelled by adding
  days to the first of the month.
* The recurrence fields come from the Prisma schema: `frequency` is the enum
  DAILY/WEEKLY/MONTHLY/YEARLY, `interval : INTEGER` (default 1, the data
  model requires `interval >= 1`; it is modelled as `Nat`, and day additions
  that would be negative in degenerate states outside the documented domain
  are clamped at zero), `days_of_week : JSON` (list of weekday numbers),
  `day_of_month : INTEGER NULL`, `start_date`, `end_date : DATETIME NULL`,
  `is_active : BOOLEAN`.
* The store state is the part of the database the generator reads and
  writes: the template rows and the task rows (task fields that no claim
  mentions - title, description, priority, deadline, assignments, events -
  are omitted).  Database-generated task ids are modelled by a fresh-id
  counter.  The wall clock read by `startOfDay(new Date())` is passed as an
  explicit `today` parameter.
-/

/-- A civil (Gregorian) calendar day: the value of a JS `Date` at
`startOfDay` precision. -/
structure CDate where
  y : Int
  m : Nat
  d : Nat
deriving DecidableEq, Repr

/-- Lexicographic (chronological) strict order on civil days; midnight
timestamps compare the same way. -/
def CDate.lt (a b : CDate) : Prop :=
  a.y < b.y ∨ (a.y = b.y ∧ (a.m < b.m ∨ (a.m = b.m ∧ a.d < b.d)))

/-- Lexicographic (chronological) order on civil days. -/
def CDate.le (a b : CDate) : Prop :=
  a.y < b.y ∨ (a.y = b.y ∧ (a.m < b.m ∨ (a.m = b.m ∧ a.d ≤ b.d)))

instance : LT CDate := ⟨CDate.lt⟩

instance : LE CDate := ⟨CDate.le⟩

instance (a b : CDate) : Decidable (a < b) := by
  change Decidable (CDate.lt a b); unfold CDate.lt; infer_instance

instance (a b : CDate) : Decidable (a ≤ b) := by
  change Decidable (CDate.le a b); unfold CDate.le; infer_instance

/-- The Gregorian leap-year rule (as implemented by the JS `Date`
calendar). -/
def isLeap (y : Int) : Bool :=
  (y % 4 == 0 && y % 100 != 0) || (y % 400 == 0)

/-- Number of days of month `m` of year `y` (JS:
`new Date(y, m, 0).getDate()`). -/
def daysInMonth (y : Int) (m : Nat) : Nat :=
  match m with
  | 1 => 31
  | 2 => if isLeap y then 29 else 28
  | 3 => 31
  | 4 => 30
  | 5 => 31
  | 6 => 30
  | 7 => 31
  | 8 => 31
  | 9 => 30
  | 10 => 31
  | 11 => 30
  | 12 => 31
  | _ => 30

/-- Days in the months before month `m` in a non-leap year. -/
def monthOffset (m : Nat) : Int :=
  match m with
  | 1 => 0
  | 2 => 31
  | 3 => 59
  | 4 => 90
  | 5 => 120
  | 6 => 151
  | 7 => 181
  | 8 => 212
  | 9 => 243
  | 10 => 273
  | 11 => 304
  | 12 => 334
  | _ => 0

/-- Number of leap years in `[0, y)` (extended to all integers by the same
floor expressions). -/
def leapsBefore (y : Int) : Int :=
  (y + 3) / 4 - (y + 99) / 100 + (y + 399) / 400

/-- Days in the months of year `y` strictly before month `m`. -/
def daysBeforeMonth (y : Int) (m : Nat) : Int :=
  monthOffset m + (if 3 ≤ m ∧ isLeap y then 1 else 0)

/-- Linear day count of a civil day (day 0 is 0000-01-01 of the proleptic
Gregorian calendar): the model of the JS timestamp line at day
granularity. -/
def dayNumber (dt : CDate) : Int :=
  365 * dt.y + leapsBefore dt.y + daysBeforeMonth dt.y dt.m + ((dt.d : Int) - 1)

/-- A structurally well-formed civil day. -/
def CDate.Valid (dt : CDate) : Prop :=
  1 ≤ dt.m ∧ dt.m ≤ 12 ∧ 1 ≤ dt.d ∧ dt.d ≤ daysInMonth dt.y dt.m

instance (dt : CDate) : Decidable dt.Valid := by
  unfold CDate.Valid; infer_instance

/-- The next civil day (the effect of adding 24h to a midnight JS date). -/
def succDate (dt : CDate) : CDate :=
  if dt.d < daysInMonth dt.y dt.m then ⟨dt.y, dt.m, dt.d + 1⟩
  else if dt.m < 12 then ⟨dt.y, dt.m + 1, 1⟩
  else ⟨dt.y + 1, 1, 1⟩

/-- date-fns `addDays` (nonnegative amounts; the generator never adds a
negative amount in its documented domain). -/
def addDays (dt : CDate) : Nat → CDate
  | 0 => dt
  | n + 1 => succDate (addDays dt n)

/-- date-fns `addWeeks`. -/
def addWeeks (dt : CDate) (n : Nat) : CDate :=
  addDays dt (7 * n)

/-- JS `getDay()`: 0 = Sunday .. 6 = Saturday. -/
def getDay (dt : CDate) : Nat :=
  ((dayNumber dt + 6) % 7).toNat

/-- date-fns `differenceInWeeks` on midnight dates: the day difference,
divided by 7 with truncation toward zero (JS semantics). -/
def differenceInWeeks (a b : CDate) : Int :=
  Int.tdiv (dayNumber a - dayNumber b) 7

/-- date-fns `addMonths`: advance the month index and clamp the day to the
length of the target month (never rolls into the following month). -/
def addMonths (dt : CDate) (k : Nat) : CDate :=
  let months : Int := dt.y * 12 + ((dt.m : Int) - 1) + k
  let y2 := months / 12
  let m2 := (months % 12).toNat + 1
  ⟨y2, m2, min dt.d (daysInMonth y2 m2)⟩

/-- date-fns `addYears`: advance the year and clamp the day (Feb 29 → Feb 28
on non-leap targets). -/
def addYears (dt : CDate) (k : Nat) : CDate :=
  ⟨dt.y + k, dt.m, min dt.d (daysInMonth (dt.y + k) dt.m)⟩

/-- JS `Date.prototype.setDate n` for `n ≥ 1`: day `n` counted from the
first of the month, overflowing into later months when `n` exceeds the month
length. -/
def setDate (dt : CDate) (n : Nat) : CDate :=
  addDays ⟨dt.y, dt.m, 1⟩ (n - 1)

/-- Prisma enum `RecurrenceFrequency`. -/
inductive Frequency where
  | DAILY
  | WEEKLY
  | MONTHLY
  | YEARLY
deriving DecidableEq, Repr

/-- Prisma enum `TaskStatus` as used by this schema. -/
inductive TaskStatus where
  | PENDING
  | IN_PROGRESS
  | DONE
  | REJECTED
  | ARCHIVED
deriving DecidableEq, Repr

/-- A `recurring_task_templates` row (the fields the generator reads). -/
structure Template where
  id : Nat
  frequency : Frequency
  interval : Nat
  days_of_week : Option (List Nat)
  day_of_month : Option Nat
  start_date : CDate
  end_date : Option CDate
  is_active : Bool
deriving DecidableEq, Repr

/-- A `tasks` row (the fields the generator reads or writes and the claims
mention).  The source's name `Task` is taken by Lean's core runtime type, so
the row type is named `TaskRow`. -/
structure TaskRow where
  task_id : Nat
  recurring_template_id : Option Nat
  occurrence_date : Option CDate
  status : TaskStatus
  current_quantity : Nat
deriving DecidableEq, Repr

/-- The store state the generator operates on: template rows, task rows and
the fresh-id counter standing for database id generation. -/
structure Store where
  templates : List Template
  tasks : List TaskRow
  nextTaskId : Nat
deriving DecidableEq, Repr

/-- `tx.recurringTaskTemplate.findUnique({ where: { id } })`. -/
def findTemplate (s : Store) (tid : Nat) : Option Template :=
  s.templates.find? (fun t => decide (t.id = tid))

/-- `dateMatchesPattern` (recurringTaskService.ts:829-860): does the date
itself satisfy the rule shape, ignoring interval stepping?  JS falsiness of
`daysOfWeek` / `dayOfMonth` covers both `null` and (for the number) `0`. -/
def dateMatchesPattern (t : Template) (date : CDate) : Bool :=
  match t.frequency with
  | .DAILY => true
  | .WEEKLY =>
    match t.days_of_week with
    | none => true
    | some daysOfWeek =>
      if daysOfWeek.length = 0 then true
      else daysOfWeek.contains (getDay date)
  | .MONTHLY =>
    match t.day_of_month with
    | none => true
    | some dayOfMonth =>
      if dayOfMonth = 0 then true
      else decide (date.d = dayOfMonth)
  | .YEARLY => true

/-- `getNextWeeklyOccurrence` (recurringTaskService.ts:890-933). -/
def getNextWeeklyOccurrence (t : Template) (fromDate : CDate) : CDate :=
  match t.days_of_week with
  | none => addWeeks fromDate t.interval
  | some daysOfWeek =>
    if daysOfWeek.length = 0 then addWeeks fromDate t.interval
    else
      let sortedDays := List.insertionSort (· ≤ ·) daysOfWeek
      let currentDayOfWeek := getDay fromDate
      let weeksSinceStart := differenceInWeeks fromDate t.start_date
      let laterDayInSameWeek :=
        if Int.tmod weeksSinceStart (t.interval : Int) = 0 then
          sortedDays.find? (fun day => decide (currentDayOfWeek < day))
        else none
      match laterDayInSameWeek with
      | some laterDay => addDays fromDate (laterDay - currentDayOfWeek)
      | none =>
        let weeksToNextCycle : Int :=
          (t.interval : Int) - Int.tmod weeksSinceStart (t.interval : Int)
        let nextCycleWeek := addWeeks fromDate weeksToNextCycle.toNat
        let nextCycleDayOfWeek := getDay nextCycleWeek
        let firstTargetDay := sortedDays.headD 0
        let daysToTarget : Int := (firstTargetDay : Int) - (nextCycleDayOfWeek : Int)
        let daysToTarget := if daysToTarget < 0 then daysToTarget + 7 else daysToTarget
        addDays nextCycleWeek daysToTarget.toNat

/-- `getNextMonthlyOccurrence` (recurringTaskService.ts:938-959).  JS
falsiness of `dayOfMonth` covers `null` and `0`. -/
def getNextMonthlyOccurrence (t : Template) (fromDate : CDate) : CDate :=
  match t.day_of_month with
  | none => addMonths fromDate t.interval
  | some dayOfMonth =>
    if dayOfMonth = 0 then addMonths fromDate t.interval
    else
      let nextDate := addMonths fromDate t.interval
      let dim := daysInMonth nextDate.y nextDate.m
      setDate nextDate (min dayOfMonth dim)

/-- `getNextOccurrence` (recurringTaskService.ts:865-885).  The source's
`default: throw` branch is unreachable here because `Frequency` has exactly
the four database enum values. -/
def getNextOccurrence (t : Template) (fromDate : CDate) : CDate :=
  match t.frequency with
  | .DAILY => addDays fromDate t.interval
  | .WEEKLY => getNextWeeklyOccurrence t fromDate
  | .MONTHLY => getNextMonthlyOccurrence t fromDate
  | .YEARLY => addYears fromDate t.interval

/-- Is the candidate strictly past the (startOfDay) end date?  Models
`template.end_date && isAfter(currentDate, endDate)`. -/
def pastEnd (t : Template) (date : CDate) : Bool :=
  match t.end_date with
  | none => false
  | some endDate => decide (endDate < date)

/-- Output of the `calculateOccurrences` while-loop, instrumented with the
number of advance iterations performed and whether the loop exited through
the end-date break. -/
structure LoopOut where
  dates : List CDate
  steps : Nat
  brokeEnd : Bool
deriving DecidableEq, Repr

/-- The while-loop of `calculateOccurrences` (recurringTaskService.ts:806-821).
`acc` holds the collected occurrences in reverse; `fuel` is the remaining
iteration budget out of `maxIterations = count * 100`; each recursive step is
one loop iteration (one `getNextOccurrence` advance). -/
def calcLoop (t : Template) (count : Nat) (existing : List CDate) :
    CDate → List CDate → Nat → LoopOut
  | _, acc, 0 => ⟨acc.reverse, 0, false⟩
  | cur, acc, fuel + 1 =>
    if count ≤ acc.length then ⟨acc.reverse, 0, false⟩
    else
      let next := getNextOccurrence t cur
      if pastEnd t next then ⟨acc.reverse, 1, true⟩
      else if next ∈ existing then
        let out := calcLoop t count existing next acc fuel
        ⟨out.dates, out.steps + 1, out.brokeEnd⟩
      else
        let out := calcLoop t count existing next (next :: acc) fuel
        ⟨out.dates, out.steps + 1, out.brokeEnd⟩

/-- `calculateOccurrences` (recurringTaskService.ts:784-824), instrumented:
start from `startOfDay(start_date)`, include the start date itself when it
matches the pattern, is not past the end date and is not an existing date,
then run the while-loop with iteration cap `count * 100`. -/
def calculateOccurrencesIter (t : Template) (count : Nat)
    (existing : List CDate) : LoopOut :=
  let currentDate := t.start_date
  let initAcc : List CDate :=
    if dateMatchesPattern t currentDate
        ∧ pastEnd t currentDate = false
        ∧ currentDate ∉ existing then
      [currentDate]
    else []
  calcLoop t count existing currentDate initAcc (count * 100)

/-- The occurrence dates returned by `calculateOccurrences`. -/
def calculateOccurrences (t : Template) (count : Nat)
    (existing : List CDate) : List CDate :=
  (calculateOccurrencesIter t count existing).dates

/-- The existing occurrence dates of a template's instances, as read by
`generateInstancesInTransaction` (`findMany` on `recurring_template_id`,
`occurrence_date` selected, `null` dropped). -/
def existingDatesOf (s : Store) (tid : Nat) : List CDate :=
  (s.tasks.filter
    (fun tk => decide (tk.recurring_template_id = some tid))).filterMap
    (fun tk => tk.occurrence_date)

/-- The task rows batch-created for a list of occurrence dates
(recurringTaskService.ts:720-743): one PENDING row per date with
`current_quantity = 0`; database id generation is modelled by consecutive
fresh ids from `startId`. -/
def mkTasks (tid : Nat) : Nat → List CDate → List TaskRow
  | _, [] => []
  | startId, d :: ds =>
    ⟨startId, some tid, some d, .PENDING, 0⟩ :: mkTasks tid (startId + 1) ds

/-- `generateInstancesInTransaction` (recurringTaskService.ts:682-779): no-op
when the template is missing or inactive; otherwise compute the new
occurrence dates (skipping existing ones) and batch-insert one PENDING task
per date.  Assignments and audit events are other tables and are not part of
the claims' state. -/
def generateInstancesInTransaction (s : Store) (tid : Nat) (count : Nat) :
    Store :=
  match findTemplate s tid with
  | none => s
  | some template =>
    if template.is_active = false then s
    else
      let existing := existingDatesOf s tid
      let occurrences := calculateOccurrences template count existing
      if occurrences = [] then s
      else
        { s with
          tasks := s.tasks ++ mkTasks tid s.nextTaskId occurrences
          nextTaskId := s.nextTaskId + occurrences.length }

/-- The `deleteMany` filter of `regenerateFutureInstancesInTransaction`
(recurringTaskService.ts:1028-1035): instances of this template with
`occurrence_date >= today`, status PENDING and no progress logged. -/
def regenDeletePred (today : CDate) (tid : Nat) (tk : TaskRow) : Bool :=
  decide (tk.recurring_template_id = some tid)
    && (match tk.occurrence_date with
        | some d => decide (today ≤ d)
        | none => false)
    && decide (tk.status = TaskStatus.PENDING)
    && decide (tk.current_quantity = 0)

/-- `regenerateFutureInstancesInTransaction` (recurringTaskService.ts:1021-1039):
delete the untouched future instances of the template, then generate 12 new
instances. -/
def regenerateFutureInstancesInTransaction (today : CDate) (s : Store)
    (tid : Nat) : Store :=
  let afterDelete :=
    { s with tasks := s.tasks.filter (fun tk => !regenDeletePred today tid tk) }
  generateInstancesInTransaction afterDelete tid 12

/-- Does this task count toward the future-instance buffer of template `tid`
(`recurring_template_id = tid` and `occurrence_date >= today`)? -/
def futureInstancePred (today : CDate) (tid : Nat) (tk : TaskRow) : Bool :=
  decide (tk.recurring_template_id = some tid)
    && (match tk.occurrence_date with
        | some d => decide (today ≤ d)
        | none => false)

/-- `ensureInstanceBuffer` (recurringTaskService.ts:1117-1139): no-op when
the template is missing or inactive; otherwise count the future instances
and top up by the shortfall. -/
def ensureInstanceBuffer (today : CDate) (s : Store) (tid : Nat)
    (minBuffer : Nat) : Store :=
  match findTemplate s tid with
  | none => s
  | some template =>
    if template.is_active = false then s
    else
      let futureInstances :=
        (s.tasks.filter (futureInstancePred today tid)).length
      if futureInstances < minBuffer then
        generateInstancesInTransaction s tid (minBuffer - futureInstances)
      else s

/-- `reactivateTemplate` (recurringTaskService.ts:1075-1088): set
`is_active := true`, then generate 12 instances in the same transaction.  A
missing template id raises a not-found error in the source; the claims only
concern existing templates, so that path is modelled as a no-op. -/
def reactivateTemplate (s : Store) (tid : Nat) : Store :=
  match findTemplate s tid with
  | none => s
  | some _ =>
    let s1 :=
      { s with
        templates := s.templates.map
          (fun t => if t.id = tid then { t with is_active := true } else t) }
    generateInstancesInTransaction s1 tid 12

/-- `ensureAllTemplatesHaveInstances` (recurringTaskService.ts:1145-1151):
iterate the active templates, awaiting `ensureInstanceBuffer(id, 12)` for
each.  The body carries no try/catch, so a rejected promise propagates out
of the `for` loop.  The per-template action is abstracted as a state
transformer returning the possibly-changed store state plus a success flag
(`false` = the awaited call threw, which in the source aborts the loop);
store failures are the source of such rejections. -/
def ensureAllTemplatesHaveInstances {St : Type}
    (ensureBuffer : Nat → St → St × Bool) :
    List Nat → St → St × Bool
  | [], s => (s, true)
  | tid :: rest, s =>
    let out := ensureBuffer tid s
    if out.2 then ensureAllTemplatesHaveInstances ensureBuffer rest out.1
    else (out.1, false)

/-- The recurrence-field slice of a Prisma `RecurringTaskTemplateUpdateInput`
as built by the controller: the outer `Option` is presence of the key in the
update object (`undefined` = absent), the inner `Option` (for the nullable
columns) distinguishes `null` from a value. -/
structure TemplateUpdates where
  frequency : Option Frequency
  interval : Option Nat
  days_of_week : Option (Option (List Nat))
  day_of_month : Option (Option Nat)
  start_date : Option CDate
  end_date : Option (Option CDate)
deriving DecidableEq, Repr

/-- JS truthiness of `updates.frequency` (an enum string, always truthy when
present). -/
def truthyFrequency : Option Frequency → Bool
  | none => false
  | some _ => true

/-- JS truthiness of `updates.interval` (a number: `0` is falsy). -/
def truthyInterval : Option Nat → Bool
  | none => false
  | some n => decide (n ≠ 0)

/-- JS truthiness of `updates.days_of_week` (`null` is falsy, an array -
even an empty one - is truthy). -/
def truthyDaysOfWeek : Option (Option (List Nat)) → Bool
  | none => false
  | some none => false
  | some (some _) => true

/-- JS truthiness of `updates.day_of_month` (`null` and `0` are falsy). -/
def truthyDayOfMonth : Option (Option Nat) → Bool
  | none => false
  | some none => false
  | some (some n) => decide (n ≠ 0)

/-- JS truthiness of `updates.start_date` (a `Date` object, truthy when
present). -/
def truthyStartDate : Option CDate → Bool
  | none => false
  | some _ => true

/-- JS truthiness of `updates.end_date` (`null` is falsy, a `Date` is
truthy). -/
def truthyEndDate : Option (Option CDate) → Bool
  | none => false
  | some none => false
  | some (some _) => true

/-- The regeneration trigger of `updateTemplate`
(recurringTaskService.ts:987-994): the JS truthiness disjunction
`updates.frequency || updates.interval || updates.days_of_week ||
updates.day_of_month || updates.start_date || updates.end_date`. -/
def recurrenceUpdateTruthy (u : TemplateUpdates) : Bool :=
  truthyFrequency u.frequency
    || truthyInterval u.interval
    || truthyDaysOfWeek u.days_of_week
    || truthyDayOfMonth u.day_of_month
    || truthyStartDate u.start_date
    || truthyEndDate u.end_date

/-- Apply a recurrence-field update to a template row (present keys
overwrite, `null` clears the nullable columns). -/
def applyUpdates (t : Template) (u : TemplateUpdates) : Template :=
  { t with
    frequency := u.frequency.getD t.frequency
    interval := u.interval.getD t.interval
    days_of_week :=
      match u.days_of_week with
      | none => t.days_of_week
      | some v => v
    day_of_month :=
      match u.day_of_month with
      | none => t.day_of_month
      | some v => v
    start_date := u.start_date.getD t.start_date
    end_date :=
      match u.end_date with
      | none => t.end_date
      | some v => v }

/-- `updateTemplate` (recurringTaskService.ts:964-1016), restricted to the
recurrence fields: apply the updates to the template row, then regenerate
future instances exactly when the truthiness condition holds.  The audit
event is another table and not part of the claims' state; a missing
template id raises a not-found error in the source and is modelled as a
no-op (the claims only concern existing templates). -/
def updateTemplate (today : CDate) (s : Store) (tid : Nat)
    (u : TemplateUpdates) : Store :=
  match findTemplate s tid with
  | none => s
  | some _ =>
    let s1 :=
      { s with
        templates := s.templates.map
          (fun t => if t.id = tid then applyUpdates t u else t) }
    if recurrenceUpdateTruthy u then
      regenerateFutureInstancesInTransaction today s1 tid
    else s1

/-- The advance sequence of `calculateOccurrences`: the candidate reached
after `n` applications of `getNextOccurrence` from a given date. -/
def walkFrom (t : Template) (cur : CDate) : Nat → CDate
  | 0 => cur
  | n + 1 => getNextOccurrence t (walkFrom t cur n)

/-- C2 scenario: WEEKLY rule, Mon/Wed/Fri (`daysOfWeek = [1,3,5]`),
`interval = 1`, start date 2026-01-05, a Monday. -/
def tmplC2 : Template :=
  ⟨0, .WEEKLY, 1, some [1, 3, 5], none, ⟨2026, 1, 5⟩, none, true⟩

/-- C3 counterexample store: a deactivated DAILY template that generated one
instance (2026-01-01, since completed) and then lay dormant. -/
def storeC3 : Store :=
  ⟨[⟨0, .DAILY, 1, none, none, ⟨2026, 1, 1⟩, none, false⟩],
   [⟨0, some 0, some ⟨2026, 1, 1⟩, .DONE, 0⟩], 1⟩

/-- The clock at the moment `reactivateTemplate` runs in the C3
counterexample: nine days into the dormant period. -/
def todayC3 : CDate := ⟨2026, 1, 10⟩

/-- C3 witness store: an inactive DAILY template with no instances yet. -/
def storeC3w : Store :=
  ⟨[⟨0, .DAILY, 1, none, none, ⟨2026, 3, 1⟩, none, false⟩], [], 0⟩

/-- C4 scenario: DAILY rule starting 2026-01-01 with inclusive end date
2026-01-03. -/
def tmplC4 : Template :=
  ⟨0, .DAILY, 1, none, none, ⟨2026, 1, 1⟩, some ⟨2026, 1, 3⟩, true⟩

/-- C5 counterexample store: an active DAILY template whose `start_date`
(2026-01-01) lies in the past relative to the clock. -/
def storeC5 : Store :=
  ⟨[⟨0, .DAILY, 1, none, none, ⟨2026, 1, 1⟩, none, true⟩], [], 0⟩

/-- The clock for the C5 counterexample: well past the template's start. -/
def todayC5 : CDate := ⟨2026, 1, 20⟩

/-- C5 witness store: an active DAILY template whose start date is not in
the past. -/
def storeC5w : Store :=
  ⟨[⟨0, .DAILY, 1, none, none, ⟨2026, 1, 20⟩, none, true⟩], [], 0⟩

/-- C6 scenario: MONTHLY rule with `dayOfMonth = 31`, `interval = 1`,
starting 2026-01-31 (2026 is not a leap year). -/
def tmplC6 : Template :=
  ⟨0, .MONTHLY, 1, none, some 31, ⟨2026, 1, 31⟩, none, true⟩

/-- C6 leap-year scenario: as `tmplC6` but starting 2024-01-31 (2024 is a
leap year). -/
def tmplC6leap : Template :=
  ⟨0, .MONTHLY, 1, none, some 31, ⟨2024, 1, 31⟩, none, true⟩

/-- C7 counterexample per-template action: processing template 1 throws
(store failure); processing any other template succeeds and records the
template id in the (list-of-processed-ids) state. -/
def actC7 (tid : Nat) (s : List Nat) : List Nat × Bool :=
  if tid = 1 then (s, false) else (s ++ [tid], true)

/-- C8 counterexample store: a template with an end date set, currently
deactivated, owning one untouched future PENDING instance. -/
def storeC8 : Store :=
  ⟨[⟨0, .DAILY, 1, none, none, ⟨2026, 1, 1⟩, some ⟨2026, 2, 1⟩, false⟩],
   [⟨0, some 0, some ⟨2026, 1, 25⟩, .PENDING, 0⟩], 1⟩

/-- C8 counterexample update: clear the end date (`end_date: null`), leaving
every other field absent - a recurrence-field change whose value is falsy. -/
def updC8 : TemplateUpdates := ⟨none, none, none, none, none, some none⟩

/-- The clock for the C8 counterexample. -/
def todayC8 : CDate := ⟨2026, 1, 20⟩

/-- C9 counterexample template: a DAILY rule whose start date matches the
pattern, so a request for zero dates still returns the start date. -/
def tmplC9 : Template :=
  ⟨0, .DAILY, 1, none, none, ⟨2026, 1, 1⟩, none, true⟩

/-- C1 witness store: an active DAILY template with one untouched future
PENDING occurrence and one future IN_PROGRESS occurrence. -/
def storeC1 : Store :=
  ⟨[⟨0, .DAILY, 1, none, none, ⟨2026, 1, 10⟩, none, true⟩],
   [⟨0, some 0, some ⟨2026, 1, 11⟩, .PENDING, 0⟩,
    ⟨1, some 0, some ⟨2026, 1, 12⟩, .IN_PROGRESS, 0⟩], 2⟩

/-- The clock for the C1 witness. -/
def todayC1 : CDate := ⟨2026, 1, 10⟩

/-- C10 witness template: a plain DAILY rule. -/
def tmplC10 : Template :=
  ⟨0, .DAILY, 1, none, none, ⟨2026, 1, 1⟩, none, true⟩

/-- C8 witness update: set `interval` to 2 (a truthy value). -/
def updC8w : TemplateUpdates := ⟨none, some 2, none, none, none, none⟩

/-- C8 witness update with no truthy recurrence field at all. -/
def updC8n : TemplateUpdates := ⟨none, none, none, none, none, none⟩

/-- C7 witness: the per-template action and template list used to
instantiate the amended sweep theorem. -/
def actC7w (tid : Nat) (s : List Nat) : List Nat × Bool :=
  if tid = 3 then (s, false) else (s ++ [tid], true)

/-- The store produced by one `ensureInstanceBuffer(12)` call on `storeC5`:
twelve PENDING instances dated 2026-01-01 .. 2026-01-12, all in the past
relative to `todayC5`. -/
def storeC5mid : Store :=
  ⟨[⟨0, .DAILY, 1, none, none, ⟨2026, 1, 1⟩, none, true⟩],
   mkTasks 0 0 [⟨2026, 1, 1⟩, ⟨2026, 1, 2⟩, ⟨2026, 1, 3⟩, ⟨2026, 1, 4⟩,
     ⟨2026, 1, 5⟩, ⟨2026, 1, 6⟩, ⟨2026, 1, 7⟩, ⟨2026, 1, 8⟩, ⟨2026, 1, 9⟩,
     ⟨2026, 1, 10⟩, ⟨2026, 1, 11⟩, ⟨2026, 1, 12⟩], 12⟩

theorem CDate.lt_iff (a b : CDate) :
    a < b ↔ (a.y < b.y ∨ (a.y = b.y ∧ (a.m < b.m ∨ (a.m = b.m ∧ a.d < b.d)))) :=
  Iff.rfl

theorem CDate.le_iff (a b : CDate) :
    a ≤ b ↔ (a.y < b.y ∨ (a.y = b.y ∧ (a.m < b.m ∨ (a.m = b.m ∧ a.d ≤ b.d)))) :=
  Iff.rfl

theorem CDate.lt_irrefl (a : CDate) : ¬ a < a := by
  rw [CDate.lt_iff]; omega

theorem CDate.lt_trans {a b c : CDate} (h1 : a < b) (h2 : b < c) : a < c := by
  rw [CDate.lt_iff] at *; omega

theorem CDate.le_refl (a : CDate) : a ≤ a := by
  rw [CDate.le_iff]; omega

theorem CDate.le_of_lt {a b : CDate} (h : a < b) : a ≤ b := by
  rw [CDate.lt_iff] at h; rw [CDate.le_iff]; omega

theorem CDate.le_trans {a b c : CDate} (h1 : a ≤ b) (h2 : b ≤ c) : a ≤ c := by
  rw [CDate.le_iff] at *; omega

theorem CDate.lt_of_le_of_lt {a b c : CDate} (h1 : a ≤ b) (h2 : b < c) :
    a < c := by
  rw [CDate.le_iff] at h1; rw [CDate.lt_iff] at *; omega

theorem CDate.lt_of_lt_of_le {a b c : CDate} (h1 : a < b) (h2 : b ≤ c) :
    a < c := by
  rw [CDate.le_iff] at h2; rw [CDate.lt_iff] at *; omega

theorem CDate.le_of_not_lt {a b : CDate} (h : ¬ b < a) : a ≤ b := by
  rw [CDate.lt_iff] at h; rw [CDate.le_iff]; omega

theorem CDate.ne_of_lt {a b : CDate} (h : a < b) : a ≠ b := by
  intro he; exact CDate.lt_irrefl a (he ▸ h)

theorem lt_succDate (dt : CDate) : dt < succDate dt := by
  unfold succDate
  split
  · rw [CDate.lt_iff]; dsimp only; omega
  · split
    · rw [CDate.lt_iff]; dsimp only; omega
    · rw [CDate.lt_iff]; dsimp only; omega

theorem le_addDays (dt : CDate) (n : Nat) : dt ≤ addDays dt n := by
  induction n with
  | zero => exact CDate.le_refl dt
  | succ k ih =>
    exact CDate.le_trans ih (CDate.le_of_lt (lt_succDate (addDays dt k)))

theorem lt_addDays (dt : CDate) {n : Nat} (hn : 1 ≤ n) : dt < addDays dt n := by
  cases n with
  | zero => omega
  | succ k =>
    exact CDate.lt_of_le_of_lt (le_addDays dt k) (lt_succDate (addDays dt k))

theorem daysInMonth_pos (y : Int) (m : Nat) : 1 ≤ daysInMonth y m := by
  unfold daysInMonth
  split <;> first | omega | (split <;> omega)

theorem addDays_within_month (y : Int) (m : Nat) (k : Nat)
    (hk : k + 1 ≤ daysInMonth y m) :
    addDays ⟨y, m, 1⟩ k = ⟨y, m, k + 1⟩ := by
  induction k with
  | zero => rfl
  | succ j ih =>
    have hj : j + 1 ≤ daysInMonth y m := by omega
    show succDate (addDays ⟨y, m, 1⟩ j) = _
    rw [ih hj]
    unfold succDate
    split
    · rfl
    · rename_i hlt
      exact absurd (by omega : j + 1 < daysInMonth y m) hlt

theorem addMonths_ym_lt (dt : CDate) {k : Nat} (hk : 1 ≤ k) :
    dt.y < (addMonths dt k).y ∨
      (dt.y = (addMonths dt k).y ∧ dt.m < (addMonths dt k).m) := by
  unfold addMonths
  have hsplit := Int.ediv_add_emod (dt.y * 12 + ((dt.m : Int) - 1) + k) 12
  have hnn : 0 ≤ (dt.y * 12 + ((dt.m : Int) - 1) + k) % 12 :=
    Int.emod_nonneg _ (by omega)
  have hlt : (dt.y * 12 + ((dt.m : Int) - 1) + k) % 12 < 12 :=
    Int.emod_lt_of_pos _ (by omega)
  dsimp only
  omega

theorem lt_addMonths (dt : CDate) {k : Nat} (hk : 1 ≤ k) :
    dt < addMonths dt k := by
  have h := addMonths_ym_lt dt hk
  rw [CDate.lt_iff]
  omega

theorem lt_addYears (dt : CDate) {k : Nat} (hk : 1 ≤ k) :
    dt < addYears dt k := by
  unfold addYears
  rw [CDate.lt_iff]
  dsimp only
  omega

theorem lt_getNextWeeklyOccurrence (t : Template) (fromDate : CDate)
    (hi : 1 ≤ t.interval) : fromDate < getNextWeeklyOccurrence t fromDate := by
  unfold getNextWeeklyOccurrence
  cases hdw : t.days_of_week with
  | none =>
    exact lt_addDays fromDate (by omega)
  | some daysOfWeek =>
    dsimp only
    split
    · exact lt_addDays fromDate (by omega)
    · split
      · rename_i laterDay hfind
        by_cases hc :
            Int.tmod (differenceInWeeks fromDate t.start_date)
              (t.interval : Int) = 0
        · rw [if_pos hc] at hfind
          have hp := List.find?_some hfind
          have hlt : getDay fromDate < laterDay := of_decide_eq_true hp
          exact lt_addDays fromDate (by omega)
        · rw [if_neg hc] at hfind
          exact absurd hfind (by simp)
      · have htm :
            Int.tmod (differenceInWeeks fromDate t.start_date)
              (t.interval : Int) < (t.interval : Int) :=
          Int.tmod_lt_of_pos _ (by exact_mod_cast Nat.pos_of_ne_zero (by omega))
        have hge :
            1 ≤ ((t.interval : Int) -
              Int.tmod (differenceInWeeks fromDate t.start_date)
                (t.interval : Int)).toNat := by
          omega
        exact CDate.lt_of_lt_of_le
          (lt_addDays fromDate (by omega)) (le_addDays _ _)

theorem lt_getNextOccurrence (t : Template) (hi : 1 ≤ t.interval)
    (cur : CDate) : cur < getNextOccurrence t cur := by
  unfold getNextOccurrence
  cases hf : t.frequency with
  | DAILY => exact lt_addDays cur hi
  | WEEKLY => exact lt_getNextWeeklyOccurrence t cur hi
  | MONTHLY =>
    unfold getNextMonthlyOccurrence
    cases hdm : t.day_of_month with
    | none => exact lt_addMonths cur hi
    | some dayOfMonth =>
      dsimp only
      split
      · exact lt_addMonths cur hi
      · have hym := addMonths_ym_lt cur (k := t.interval) hi
        have hdimpos := daysInMonth_pos (addMonths cur t.interval).y
          (addMonths cur t.interval).m
        unfold setDate
        rw [addDays_within_month _ _ _ (by
          have := Nat.min_le_right dayOfMonth
            (daysInMonth (addMonths cur t.interval).y
              (addMonths cur t.interval).m)
          omega)]
        rw [CDate.lt_iff]
        dsimp only
        omega
  | YEARLY => exact lt_addYears cur hi

theorem calcLoop_steps_le (t : Template) (count : Nat) (existing : List CDate)
    (fuel : Nat) :
    ∀ (cur : CDate) (acc : List CDate),
      (calcLoop t count existing cur acc fuel).steps ≤ fuel := by
  induction fuel with
  | zero =>
    intro cur acc
    simp [calcLoop]
  | succ f ih =>
    intro cur acc
    simp only [calcLoop]
    split
    · simp
    · split
      · simp
      · split
        · have := ih (getNextOccurrence t cur) acc
          dsimp only
          omega
        · have := ih (getNextOccurrence t cur) (getNextOccurrence t cur :: acc)
          dsimp only
          omega

theorem calcLoop_length_le (t : Template) (count : Nat)
    (existing : List CDate) (fuel : Nat) :
    ∀ (cur : CDate) (acc : List CDate), acc.length ≤ count →
      (calcLoop t count existing cur acc fuel).dates.length ≤ count := by
  induction fuel with
  | zero =>
    intro cur acc hacc
    simpa [calcLoop] using hacc
  | succ f ih =>
    intro cur acc hacc
    simp only [calcLoop]
    split
    · simpa using hacc
    · rename_i hcnt
      split
      · simpa using hacc
      · split
        · have := ih (getNextOccurrence t cur) acc hacc
          dsimp only
          omega
        · have := ih (getNextOccurrence t cur) (getNextOccurrence t cur :: acc)
            (by simp; omega)
          dsimp only
          omega

theorem calcLoop_acc_subset (t : Template) (count : Nat)
    (existing : List CDate) (fuel : Nat) :
    ∀ (cur : CDate) (acc : List CDate) (a : CDate), a ∈ acc →
      a ∈ (calcLoop t count existing cur acc fuel).dates := by
  induction fuel with
  | zero =>
    intro cur acc a ha
    simpa [calcLoop] using ha
  | succ f ih =>
    intro cur acc a ha
    simp only [calcLoop]
    split
    · simpa using ha
    · split
      · simpa using ha
      · split
        · exact ih (getNextOccurrence t cur) acc a ha
        · exact ih (getNextOccurrence t cur) (getNextOccurrence t cur :: acc) a
            (by simp [ha])

theorem calcLoop_length_ge (t : Template) (count : Nat)
    (existing : List CDate) (fuel : Nat) :
    ∀ (cur : CDate) (acc : List CDate),
      acc.length ≤ (calcLoop t count existing cur acc fuel).dates.length := by
  induction fuel with
  | zero =>
    intro cur acc
    simp [calcLoop]
  | succ f ih =>
    intro cur acc
    simp only [calcLoop]
    split
    · simp
    · split
      · simp
      · split
        · exact ih (getNextOccurrence t cur) acc
        · have := ih (getNextOccurrence t cur) (getNextOccurrence t cur :: acc)
          dsimp only
          simp only [List.length_cons] at this
          omega

theorem calcLoop_mem_new (t : Template) (count : Nat)
    (existing : List CDate) (fuel : Nat) :
    ∀ (cur : CDate) (acc : List CDate) (x : CDate),
      x ∈ (calcLoop t count existing cur acc fuel).dates →
      x ∈ acc ∨ (x ∉ existing ∧ pastEnd t x = false) := by
  induction fuel with
  | zero =>
    intro cur acc x hx
    simp only [calcLoop] at hx
    exact Or.inl (by simpa using hx)
  | succ f ih =>
    intro cur acc x hx
    simp only [calcLoop] at hx
    split at hx
    · exact Or.inl (by simpa using hx)
    · split at hx
      · exact Or.inl (by simpa using hx)
      · rename_i hpe
        split at hx
        · exact ih (getNextOccurrence t cur) acc x hx
        · rename_i hmem
          rcases ih (getNextOccurrence t cur) (getNextOccurrence t cur :: acc)
              x hx with h | h
          · rcases List.mem_cons.mp h with h | h
            · subst h
              exact Or.inr ⟨hmem, by simpa using hpe⟩
            · exact Or.inl h
          · exact Or.inr h

theorem calcLoop_mem_gt (t : Template) (count : Nat)
    (existing : List CDate) (hstep : ∀ c, c < getNextOccurrence t c)
    (fuel : Nat) :
    ∀ (cur : CDate) (acc : List CDate) (x : CDate),
      x ∈ (calcLoop t count existing cur acc fuel).dates →
      x ∈ acc ∨ cur < x := by
  induction fuel with
  | zero =>
    intro cur acc x hx
    simp only [calcLoop] at hx
    exact Or.inl (by simpa using hx)
  | succ f ih =>
    intro cur acc x hx
    simp only [calcLoop] at hx
    split at hx
    · exact Or.inl (by simpa using hx)
    · split at hx
      · exact Or.inl (by simpa using hx)
      · split at hx
        · rcases ih (getNextOccurrence t cur) acc x hx with h | h
          · exact Or.inl h
          · exact Or.inr (CDate.lt_trans (hstep cur) h)
        · rcases ih (getNextOccurrence t cur) (getNextOccurrence t cur :: acc)
              x hx with h | h
          · rcases List.mem_cons.mp h with h | h
            · subst h
              exact Or.inr (hstep cur)
            · exact Or.inl h
          · exact Or.inr (CDate.lt_trans (hstep cur) h)

theorem calcLoop_chain (t : Template) (count : Nat) (existing : List CDate)
    (hstep : ∀ c, c < getNextOccurrence t c) (fuel : Nat) :
    ∀ (cur : CDate) (acc : List CDate),
      List.Chain' (fun a b => b < a) acc → (∀ a ∈ acc, a ≤ cur) →
      List.Chain' (· < ·) (calcLoop t count existing cur acc fuel).dates := by
  induction fuel with
  | zero =>
    intro cur acc hchain hle
    simp only [calcLoop]
    exact List.chain'_reverse.mpr hchain
  | succ f ih =>
    intro cur acc hchain hle
    simp only [calcLoop]
    split
    · exact List.chain'_reverse.mpr hchain
    · split
      · exact List.chain'_reverse.mpr hchain
      · split
        · exact ih (getNextOccurrence t cur) acc hchain
            (fun a ha => CDate.le_trans (hle a ha)
              (CDate.le_of_lt (hstep cur)))
        · refine ih (getNextOccurrence t cur)
            (getNextOccurrence t cur :: acc) ?_ ?_
          · rw [List.chain'_cons']
            refine ⟨?_, hchain⟩
            intro b hb
            have hbmem : b ∈ acc := by
              cases acc with
              | nil => simp at hb
              | cons a l => simp_all
            exact CDate.lt_of_le_of_lt (hle b hbmem) (hstep cur)
          · intro a ha
            rcases List.mem_cons.mp ha with h | h
            · exact h ▸ CDate.le_refl _
            · exact CDate.le_trans (hle a h) (CDate.le_of_lt (hstep cur))

theorem walkFrom_shift (t : Template) (cur : CDate) (n : Nat) :
    walkFrom t (getNextOccurrence t cur) n = walkFrom t cur (n + 1) := by
  induction n with
  | zero => rfl
  | succ k ih =>
    show getNextOccurrence t (walkFrom t (getNextOccurrence t cur) k) = _
    rw [ih]
    rfl

theorem le_walkFrom (t : Template) (hstep : ∀ c, c < getNextOccurrence t c)
    (cur : CDate) (n : Nat) : cur ≤ walkFrom t cur n := by
  induction n with
  | zero => exact CDate.le_refl cur
  | succ k ih =>
    exact CDate.le_trans ih (CDate.le_of_lt (hstep (walkFrom t cur k)))

theorem pastEnd_mono (t : Template) {a b : CDate} (hab : a ≤ b)
    (ha : pastEnd t a = true) : pastEnd t b = true := by
  unfold pastEnd at *
  cases he : t.end_date with
  | none => rw [he] at ha; exact absurd ha (by simp)
  | some e =>
    rw [he] at ha
    exact decide_eq_true (CDate.lt_of_lt_of_le (of_decide_eq_true ha) hab)

theorem calcLoop_brokeEnd_complete (t : Template) (count : Nat)
    (existing : List CDate) (hstep : ∀ c, c < getNextOccurrence t c)
    (fuel : Nat) :
    ∀ (cur : CDate) (acc : List CDate) (out : LoopOut),
      calcLoop t count existing cur acc fuel = out →
      out.brokeEnd = true →
      ∀ j, 1 ≤ j → pastEnd t (walkFrom t cur j) = false →
        walkFrom t cur j ∈ existing ∨ walkFrom t cur j ∈ out.dates := by
  induction fuel with
  | zero =>
    intro cur acc out hout hbe
    simp only [calcLoop] at hout
    rw [← hout] at hbe
    simp at hbe
  | succ f ih =>
    intro cur acc out hout hbe j hj hpe
    simp only [calcLoop] at hout
    split at hout
    · rw [← hout] at hbe
      simp at hbe
    · split at hout
      · rename_i hnext
        have hle1 : getNextOccurrence t cur ≤ walkFrom t cur j := by
          cases j with
          | zero => omega
          | succ k =>
            rw [← walkFrom_shift]
            exact le_walkFrom t hstep (getNextOccurrence t cur) k
        exact absurd (pastEnd_mono t hle1 hnext) (by rw [hpe]; simp)
      · split at hout
        · rename_i hmem
          rw [← hout] at hbe ⊢
          dsimp only at hbe ⊢
          cases j with
          | zero => omega
          | succ k =>
            cases k with
            | zero => exact Or.inl hmem
            | succ k2 =>
              have := ih (getNextOccurrence t cur) acc _ rfl hbe (k2 + 1)
                (by omega) (by rw [walkFrom_shift]; exact hpe)
              rw [walkFrom_shift] at this
              exact this
        · rename_i hmem
          rw [← hout] at hbe ⊢
          dsimp only at hbe ⊢
          cases j with
          | zero => omega
          | succ k =>
            cases k with
            | zero =>
              exact Or.inr (calcLoop_acc_subset t count existing f _ _ _
                (by exact List.mem_cons.mpr (Or.inl rfl)))
            | succ k2 =>
              have := ih (getNextOccurrence t cur)
                (getNextOccurrence t cur :: acc) _ rfl hbe (k2 + 1) (by omega)
                (by rw [walkFrom_shift]; exact hpe)
              rw [walkFrom_shift] at this
              exact this

theorem calcLoop_all_existing (t : Template) (count : Nat)
    (existing : List CDate) (fuel : Nat) :
    ∀ (cur : CDate),
      (∀ j, 1 ≤ j → pastEnd t (walkFrom t cur j) = false →
        walkFrom t cur j ∈ existing) →
      (calcLoop t count existing cur [] fuel).dates = [] := by
  induction fuel with
  | zero =>
    intro cur hall
    simp [calcLoop]
  | succ f ih =>
    intro cur hall
    simp only [calcLoop]
    split
    · simp
    · split
      · simp
      · rename_i hnotpe
        split
        · exact ih (getNextOccurrence t cur) (fun j hj hpe => by
            have := hall (j + 1) (by omega)
              (by rw [← walkFrom_shift]; exact hpe)
            rw [← walkFrom_shift] at this
            exact this)
        · rename_i hmem
          have h1 : pastEnd t (walkFrom t cur 1) = false := by
            show pastEnd t (getNextOccurrence t cur) = false
            simpa using hnotpe
          exact absurd (hall 1 (by omega) h1) hmem

theorem calcLoop_fuel_exhausted (t : Template) (count : Nat)
    (existing : List CDate) (fuel : Nat) :
    ∀ (cur : CDate) (acc : List CDate) (out : LoopOut),
      calcLoop t count existing cur acc fuel = out →
      out.brokeEnd = false → out.dates.length < count →
      out.steps = fuel := by
  induction fuel with
  | zero =>
    intro cur acc out hout _ _
    simp only [calcLoop] at hout
    rw [← hout]
  | succ f ih =>
    intro cur acc out hout hbe hlen
    simp only [calcLoop] at hout
    split at hout
    · rw [← hout] at hlen
      dsimp only at hlen
      simp only [List.length_reverse] at hlen
      omega
    · split at hout
      · rw [← hout] at hbe
        simp at hbe
      · split at hout
        · rw [← hout] at hbe hlen ⊢
          dsimp only at hbe hlen ⊢
          rw [ih (getNextOccurrence t cur) acc _ rfl hbe hlen]
        · rw [← hout] at hbe hlen ⊢
          dsimp only at hbe hlen ⊢
          rw [ih (getNextOccurrence t cur) (getNextOccurrence t cur :: acc)
            _ rfl hbe hlen]

theorem filter_lt_length_mono {cur next : CDate} (h : cur < next)
    (l : List CDate) :
    (l.filter (fun e => decide (next < e))).length ≤
      (l.filter (fun e => decide (cur < e))).length := by
  rw [← List.countP_eq_length_filter, ← List.countP_eq_length_filter]
  exact List.countP_mono_left (fun x _ hx =>
    decide_eq_true (CDate.lt_trans h (of_decide_eq_true hx)))

theorem filter_lt_length_succ {cur next : CDate} {l : List CDate}
    (h : cur < next) (hmem : next ∈ l) (hnd : l.Nodup) :
    (l.filter (fun e => decide (next < e))).length + 1 ≤
      (l.filter (fun e => decide (cur < e))).length := by
  have hsub : (next :: l.filter (fun e => decide (next < e))) ⊆
      l.filter (fun e => decide (cur < e)) := by
    intro x hx
    rcases List.mem_cons.mp hx with h1 | h1
    · subst h1
      exact List.mem_filter.mpr ⟨hmem, decide_eq_true h⟩
    · have := List.mem_filter.mp h1
      exact List.mem_filter.mpr ⟨this.1,
        decide_eq_true (CDate.lt_trans h (of_decide_eq_true this.2))⟩
  have hnd1 : (next :: l.filter (fun e => decide (next < e))).Nodup := by
    rw [List.nodup_cons]
    refine ⟨?_, hnd.filter _⟩
    intro hc
    exact CDate.lt_irrefl next (of_decide_eq_true (List.mem_filter.mp hc).2)
  have := (List.subperm_of_subset hnd1 hsub).length_le
  simpa using this

theorem calcLoop_steps_bound (t : Template) (count : Nat)
    (existing : List CDate) (hnd : existing.Nodup)
    (hstep : ∀ c, c < getNextOccurrence t c) (fuel : Nat) :
    ∀ (cur : CDate) (acc : List CDate) (out : LoopOut),
      calcLoop t count existing cur acc fuel = out →
      out.steps ≤ (out.dates.length - acc.length) +
        (existing.filter (fun e => decide (cur < e))).length +
        (if out.brokeEnd then 1 else 0) := by
  induction fuel with
  | zero =>
    intro cur acc out hout
    simp only [calcLoop] at hout
    rw [← hout]
    simp
  | succ f ih =>
    intro cur acc out hout
    simp only [calcLoop] at hout
    split at hout
    · rw [← hout]; simp
    · split at hout
      · rw [← hout]
        dsimp only
        rw [if_pos rfl]
        omega
      · split at hout
        · rename_i hmem
          rw [← hout]
          dsimp only
          have hsub := ih (getNextOccurrence t cur) acc _ rfl
          have hcount := filter_lt_length_succ (hstep cur) hmem hnd
          split at hsub <;> split <;> omega
        · rename_i hmem
          rw [← hout]
          dsimp only
          have hsub := ih (getNextOccurrence t cur)
            (getNextOccurrence t cur :: acc) _ rfl
          have hmono := filter_lt_length_mono (hstep cur) existing
          have hge := calcLoop_length_ge t count existing f
            (getNextOccurrence t cur) (getNextOccurrence t cur :: acc)
          simp only [List.length_cons] at hsub hge
          split at hsub <;> split <;> omega

theorem mkTasks_mem {tid : Nat} {ds : List CDate} :
    ∀ {i : Nat} {tk : TaskRow}, tk ∈ mkTasks tid i ds →
      tk.recurring_template_id = some tid ∧ tk.status = TaskStatus.PENDING ∧
        tk.current_quantity = 0 ∧ i ≤ tk.task_id ∧
        ∃ d ∈ ds, tk.occurrence_date = some d := by
  induction ds with
  | nil =>
    intro i tk htk
    simp [mkTasks] at htk
  | cons d rest ih =>
    intro i tk htk
    rcases List.mem_cons.mp htk with h | h
    · subst h
      exact ⟨rfl, rfl, rfl, Nat.le_refl i, d, List.mem_cons_self d rest, rfl⟩
    · obtain ⟨h1, h2, h3, h4, d2, hd2, h5⟩ := ih h
      exact ⟨h1, h2, h3, by omega, d2, List.mem_cons_of_mem d hd2, h5⟩

theorem mkTasks_dates (tid : Nat) (ds : List CDate) :
    ∀ i, ((mkTasks tid i ds).filter
        (fun tk => decide (tk.recurring_template_id = some tid))).filterMap
      (fun tk => tk.occurrence_date) = ds := by
  induction ds with
  | nil => intro i; rfl
  | cons d rest ih =>
    intro i
    simp only [mkTasks, List.filter_cons, List.filterMap_cons]
    simp [ih (i + 1)]

theorem mkTasks_future_length (today : CDate) (tid : Nat) (ds : List CDate)
    (hds : ∀ d ∈ ds, today ≤ d) :
    ∀ i, ((mkTasks tid i ds).filter (futureInstancePred today tid)).length =
      ds.length := by
  induction ds with
  | nil => intro i; rfl
  | cons d rest ih =>
    intro i
    have h1 : futureInstancePred today tid
        ⟨i, some tid, some d, .PENDING, 0⟩ = true := by
      unfold futureInstancePred
      have := hds d (List.mem_cons_self d rest)
      simp [this]
    simp only [mkTasks, List.filter_cons, h1, if_pos, List.length_cons]
    rw [ih (fun d2 hd2 => hds d2 (List.mem_cons_of_mem d hd2)) (i + 1)]

theorem existingDatesOf_append_mkTasks (s : Store) (tid : Nat) (i n : Nat)
    (ds : List CDate) :
    existingDatesOf
      { s with tasks := s.tasks ++ mkTasks tid i ds, nextTaskId := n } tid =
      existingDatesOf s tid ++ ds := by
  unfold existingDatesOf
  dsimp only
  rw [List.filter_append, List.filterMap_append, mkTasks_dates]

theorem future_filter_length (today : CDate) (tid : Nat) :
    ∀ l : List TaskRow,
      (l.filter (futureInstancePred today tid)).length =
      (((l.filter (fun tk => decide (tk.recurring_template_id = some tid))
        ).filterMap (fun tk => tk.occurrence_date)).filter
          (fun d => decide (today ≤ d))).length := by
  intro l
  induction l with
  | nil => rfl
  | cons tk rest ih =>
    simp only [List.filter_cons]
    by_cases htid : tk.recurring_template_id = some tid
    · cases hocc : tk.occurrence_date with
      | none =>
        have hpred : futureInstancePred today tid tk = false := by
          unfold futureInstancePred
          rw [hocc]
          simp
        simp [hpred, htid, hocc, List.filterMap_cons, ih]
      | some d =>
        by_cases hle : today ≤ d
        · have hpred : futureInstancePred today tid tk = true := by
            unfold futureInstancePred
            rw [hocc]
            simp [htid, hle]
          simp [hpred, htid, hocc, hle, List.filterMap_cons, ih]
        · have hpred : futureInstancePred today tid tk = false := by
            unfold futureInstancePred
            rw [hocc]
            simp [htid, hle]
          simp [hpred, htid, hocc, hle, List.filterMap_cons, ih]
    · have hpred : futureInstancePred today tid tk = false := by
        unfold futureInstancePred
        simp [htid]
      simp [hpred, htid, ih]

theorem calculateOccurrences_not_mem (t : Template) (count : Nat)
    (existing : List CDate) :
    ∀ d ∈ calculateOccurrences t count existing, d ∉ existing := by
  intro d hd
  unfold calculateOccurrences calculateOccurrencesIter at hd
  rcases calcLoop_mem_new t count existing (count * 100) t.start_date _ d hd
    with h | h
  · split at h
    · rename_i hc
      rcases List.mem_cons.mp h with h1 | h1
      · subst h1
        exact hc.2.2
      · simp at h1
    · simp at h
  · exact h.1

theorem calculateOccurrences_pastEnd_false (t : Template) (count : Nat)
    (existing : List CDate) :
    ∀ d ∈ calculateOccurrences t count existing, pastEnd t d = false := by
  intro d hd
  unfold calculateOccurrences calculateOccurrencesIter at hd
  rcases calcLoop_mem_new t count existing (count * 100) t.start_date _ d hd
    with h | h
  · split at h
    · rename_i hc
      rcases List.mem_cons.mp h with h1 | h1
      · subst h1
        exact hc.2.1
      · simp at h1
    · simp at h
  · exact h.2

theorem calculateOccurrences_ge_start (t : Template) (count : Nat)
    (existing : List CDate) (hstep : ∀ c, c < getNextOccurrence t c) :
    ∀ d ∈ calculateOccurrences t count existing, t.start_date ≤ d := by
  intro d hd
  unfold calculateOccurrences calculateOccurrencesIter at hd
  rcases calcLoop_mem_gt t count existing hstep (count * 100) t.start_date _
      d hd with h | h
  · split at h
    · rcases List.mem_cons.mp h with h1 | h1
      · subst h1
        exact CDate.le_refl _
      · simp at h1
    · simp at h
  · exact CDate.le_of_lt h

theorem calculateOccurrences_chain (t : Template) (count : Nat)
    (existing : List CDate) (hstep : ∀ c, c < getNextOccurrence t c) :
    List.Chain' (· < ·) (calculateOccurrences t count existing) := by
  unfold calculateOccurrences calculateOccurrencesIter
  refine calcLoop_chain t count existing hstep (count * 100) t.start_date _
    ?_ ?_
  · split
    · simp
    · simp
  · intro a ha
    split at ha
    · rcases List.mem_cons.mp ha with h1 | h1
      · subst h1
        exact CDate.le_refl _
      · simp at h1
    · simp at ha

theorem calculateOccurrences_length_le (t : Template) (count : Nat)
    (existing : List CDate) (hcount : 1 ≤ count) :
    (calculateOccurrences t count existing).length ≤ count := by
  unfold calculateOccurrences calculateOccurrencesIter
  refine calcLoop_length_le t count existing (count * 100) t.start_date _ ?_
  split
  · simpa using hcount
  · simp

theorem calculateOccurrences_start_mem (t : Template) (count : Nat)
    (existing : List CDate)
    (hc : dateMatchesPattern t t.start_date = true ∧
      pastEnd t t.start_date = false ∧ t.start_date ∉ existing) :
    t.start_date ∈ calculateOccurrences t count existing := by
  unfold calculateOccurrences calculateOccurrencesIter
  refine calcLoop_acc_subset t count existing (count * 100) t.start_date _
    t.start_date ?_
  rw [if_pos hc]
  exact List.mem_cons_self _ _

theorem regenDeletePred_iff (today : CDate) (tid : Nat) (tk : TaskRow) :
    regenDeletePred today tid tk = true ↔
      (tk.recurring_template_id = some tid ∧
        tk.status = TaskStatus.PENDING ∧ tk.current_quantity = 0 ∧
        ∃ d, tk.occurrence_date = some d ∧ today ≤ d) := by
  unfold regenDeletePred
  cases hocc : tk.occurrence_date with
  | none => simp [hocc]
  | some d =>
    simp only [Bool.and_eq_true, decide_eq_true_eq]
    constructor
    · rintro ⟨⟨⟨h1, h2⟩, h3⟩, h4⟩
      exact ⟨h1, h3, h4, d, rfl, h2⟩
    · rintro ⟨h1, h3, h4, d2, hd2, h5⟩
      cases hd2
      exact ⟨⟨⟨h1, h5⟩, h3⟩, h4⟩

theorem generate_shape (s : Store) (tid : Nat) (count : Nat) :
    generateInstancesInTransaction s tid count = s ∨
    ∃ t, findTemplate s tid = some t ∧ t.is_active = true ∧
      calculateOccurrences t count (existingDatesOf s tid) ≠ [] ∧
      generateInstancesInTransaction s tid count =
        { s with
          tasks := s.tasks ++ mkTasks tid s.nextTaskId
            (calculateOccurrences t count (existingDatesOf s tid))
          nextTaskId := s.nextTaskId +
            (calculateOccurrences t count (existingDatesOf s tid)).length } := by
  unfold generateInstancesInTransaction
  cases hft : findTemplate s tid with
  | none => exact Or.inl rfl
  | some t =>
    dsimp only
    split
    · exact Or.inl rfl
    · rename_i hact
      split
      · exact Or.inl rfl
      · rename_i hocc
        refine Or.inr ⟨t, rfl, ?_, hocc, rfl⟩
        cases h : t.is_active
        · exact absurd h hact
        · rfl

/-- C1: for every template and store state, `regenerateFutureInstances`
deletes exactly the occurrences of that template with `occurrenceDate ≥
today`, status PENDING and `currentQuantity = 0`; every other occurrence
(in progress, completed, or in the past) is still present, unchanged, after
the regeneration, and everything the regeneration adds is a fresh PENDING
zero-progress instance of the template. -/
theorem C1_regenerate_frame_effect (today : CDate) (s : Store) (tid : Nat)
    (hfresh : ∀ tk ∈ s.tasks, tk.task_id < s.nextTaskId) :
    (∀ tk ∈ s.tasks,
      ¬(tk.recurring_template_id = some tid ∧
        tk.status = TaskStatus.PENDING ∧ tk.current_quantity = 0 ∧
        ∃ d, tk.occurrence_date = some d ∧ today ≤ d) →
      tk ∈ (regenerateFutureInstancesInTransaction today s tid).tasks) ∧
    (∀ tk ∈ s.tasks,
      (tk.recurring_template_id = some tid ∧
        tk.status = TaskStatus.PENDING ∧ tk.current_quantity = 0 ∧
        ∃ d, tk.occurrence_date = some d ∧ today ≤ d) →
      tk ∉ (regenerateFutureInstancesInTransaction today s tid).tasks) ∧
    (∀ tk ∈ (regenerateFutureInstancesInTransaction today s tid).tasks,
      tk ∈ s.tasks ∨
      (tk.recurring_template_id = some tid ∧
        tk.status = TaskStatus.PENDING ∧ tk.current_quantity = 0 ∧
        s.nextTaskId ≤ tk.task_id)) := by
  unfold regenerateFutureInstancesInTransaction
  set sd : Store :=
    { s with tasks := s.tasks.filter (fun tk => !regenDeletePred today tid tk) }
    with hsd
  have hdel_mem : ∀ tk : TaskRow, tk ∈ sd.tasks ↔
      (tk ∈ s.tasks ∧ regenDeletePred today tid tk = false) := by
    intro tk
    rw [hsd]
    dsimp only
    rw [List.mem_filter]
    constructor
    · rintro ⟨h1, h2⟩
      exact ⟨h1, by simpa using h2⟩
    · rintro ⟨h1, h2⟩
      exact ⟨h1, by simpa using h2⟩
  rcases generate_shape sd tid 12 with hg | ⟨t, hft, hact, hocc, hg⟩
  · rw [hg]
    refine ⟨?_, ?_, ?_⟩
    · intro tk htk hP
      exact (hdel_mem tk).mpr ⟨htk, by
        rcases h : regenDeletePred today tid tk with _ | _
        · rfl
        · exact absurd ((regenDeletePred_iff today tid tk).mp h) hP⟩
    · intro tk htk hP hmem
      have := ((hdel_mem tk).mp hmem).2
      rw [(regenDeletePred_iff today tid tk).mpr hP] at this
      exact Bool.true_eq_false.mp this
    · intro tk htk
      exact Or.inl ((hdel_mem tk).mp htk).1
  · rw [hg]
    dsimp only
    refine ⟨?_, ?_, ?_⟩
    · intro tk htk hP
      refine List.mem_append.mpr (Or.inl ?_)
      exact (hdel_mem tk).mpr ⟨htk, by
        rcases h : regenDeletePred today tid tk with _ | _
        · rfl
        · exact absurd ((regenDeletePred_iff today tid tk).mp h) hP⟩
    · intro tk htk hP hmem
      rcases List.mem_append.mp hmem with h | h
      · have := ((hdel_mem tk).mp h).2
        rw [(regenDeletePred_iff today tid tk).mpr hP] at this
        exact Bool.true_eq_false.mp this
      · have := (mkTasks_mem h).2.2.2.1
        have hlt := hfresh tk htk
        omega
    · intro tk htk
      rcases List.mem_append.mp htk with h | h
      · exact Or.inl ((hdel_mem tk).mp h).1
      · obtain ⟨h1, h2, h3, h4, _⟩ := mkTasks_mem h
        exact Or.inr ⟨h1, h2, h3, h4⟩

/-- C1 witness: in the concrete store with one untouched future PENDING
occurrence and one future IN_PROGRESS occurrence of the same template,
regeneration deletes the first and keeps the second unchanged. -/
theorem C1_regenerate_frame_effect_witness :
    (⟨1, some 0, some ⟨2026, 1, 12⟩, .IN_PROGRESS, 0⟩ : TaskRow) ∈
      (regenerateFutureInstancesInTransaction todayC1 storeC1 0).tasks ∧
    (⟨0, some 0, some ⟨2026, 1, 11⟩, .PENDING, 0⟩ : TaskRow) ∉
      (regenerateFutureInstancesInTransaction todayC1 storeC1 0).tasks := by
  have hfresh : ∀ tk ∈ storeC1.tasks, tk.task_id < storeC1.nextTaskId := by
    decide
  refine ⟨?_, ?_⟩
  · exact (C1_regenerate_frame_effect todayC1 storeC1 0 hfresh).1
      ⟨1, some 0, some ⟨2026, 1, 12⟩, .IN_PROGRESS, 0⟩ (by decide)
      (by intro h; exact absurd h.2.1 (by decide))
  · exact (C1_regenerate_frame_effect todayC1 storeC1 0 hfresh).2.1
      ⟨0, some 0, some ⟨2026, 1, 11⟩, .PENDING, 0⟩ (by decide)
      ⟨rfl, rfl, rfl, ⟨2026, 1, 11⟩, rfl, by decide⟩

/-- C10: for every template with `interval ≥ 1`, every `getNextOccurrence`
step yields a strictly later date (for all four frequencies), the list
returned by `calculateOccurrences` is strictly increasing, and it is
disjoint from `existingDates` - so a generation batch never repeats a
`(templateId, occurrenceDate)` pair. -/
theorem C10_calculateOccurrences_strictly_increasing (t : Template)
    (count : Nat) (existing : List CDate) (hint : 1 ≤ t.interval) :
    (∀ cur, cur < getNextOccurrence t cur) ∧
    List.Chain' (· < ·) (calculateOccurrences t count existing) ∧
    (∀ d ∈ calculateOccurrences t count existing, d ∉ existing) :=
  ⟨lt_getNextOccurrence t hint,
   calculateOccurrences_chain t count existing (lt_getNextOccurrence t hint),
   calculateOccurrences_not_mem t count existing⟩

/-- C10 witness: the strict-increase and disjointness facts instantiated on
a concrete DAILY template. -/
theorem C10_calculateOccurrences_strictly_increasing_witness :
    List.Chain' (· < ·) (calculateOccurrences tmplC10 3 [⟨2026, 1, 2⟩]) ∧
    (∀ d ∈ calculateOccurrences tmplC10 3 [⟨2026, 1, 2⟩],
      d ∉ [(⟨2026, 1, 2⟩ : CDate)]) :=
  ⟨(C10_calculateOccurrences_strictly_increasing tmplC10 3 [⟨2026, 1, 2⟩]
      (by decide)).2.1,
   (C10_calculateOccurrences_strictly_increasing tmplC10 3 [⟨2026, 1, 2⟩]
      (by decide)).2.2⟩

/-- C4: for every template with an end date, no date returned by
`calculateOccurrences` is strictly after the end date; and on a concrete
template whose third candidate equals the end date, that boundary date is
included rather than dropped. -/
theorem C4_end_date_inclusive_bound :
    (∀ (t : Template) (count : Nat) (existing : List CDate) (e : CDate),
      t.end_date = some e →
      ∀ d ∈ calculateOccurrences t count existing, d ≤ e) ∧
    (tmplC4.end_date = some ⟨2026, 1, 3⟩ ∧
      calculateOccurrences tmplC4 3 [] =
        [⟨2026, 1, 1⟩, ⟨2026, 1, 2⟩, ⟨2026, 1, 3⟩]) := by
  refine ⟨?_, rfl, by decide⟩
  intro t count existing e he d hd
  have hpe := calculateOccurrences_pastEnd_false t count existing d hd
  unfold pastEnd at hpe
  rw [he] at hpe
  exact CDate.le_of_not_lt (by simpa using hpe)

/-- C4 witness: the general bound instantiated on the concrete template:
every generated date is at most the end date 2026-01-03. -/
theorem C4_end_date_inclusive_bound_witness :
    ∀ d ∈ calculateOccurrences tmplC4 3 [], d ≤ (⟨2026, 1, 3⟩ : CDate) :=
  C4_end_date_inclusive_bound.1 tmplC4 3 [] ⟨2026, 1, 3⟩ rfl

/-- C6: for a MONTHLY rule with a day-of-month, the next occurrence lands in
exactly the target month reached by `addMonths` (it never rolls into the
following month) and its day-of-month is `min(dayOfMonth, daysInMonth)` of
that month; concretely, from Jan 31 with `dayOfMonth = 31`, `interval = 1`
the next occurrence is Feb 28 in the non-leap year 2026 and Feb 29 in the
leap year 2024. -/
theorem C6_monthly_day_clamping :
    (∀ (t : Template) (fromDate : CDate) (dom : Nat),
      t.day_of_month = some dom → 1 ≤ dom →
      (getNextMonthlyOccurrence t fromDate).y =
          (addMonths fromDate t.interval).y ∧
        (getNextMonthlyOccurrence t fromDate).m =
          (addMonths fromDate t.interval).m ∧
        (getNextMonthlyOccurrence t fromDate).d =
          min dom (daysInMonth (addMonths fromDate t.interval).y
            (addMonths fromDate t.interval).m)) ∧
    getNextMonthlyOccurrence tmplC6 ⟨2026, 1, 31⟩ = ⟨2026, 2, 28⟩ ∧
    getNextMonthlyOccurrence tmplC6leap ⟨2024, 1, 31⟩ = ⟨2024, 2, 29⟩ := by
  refine ⟨?_, by decide, by decide⟩
  intro t fromDate dom hdom hpos
  unfold getNextMonthlyOccurrence
  rw [hdom]
  dsimp only
  rw [if_neg (by omega)]
  have hdim := daysInMonth_pos (addMonths fromDate t.interval).y
    (addMonths fromDate t.interval).m
  have hmin : min dom (daysInMonth (addMonths fromDate t.interval).y
      (addMonths fromDate t.interval).m) - 1 + 1 ≤
      daysInMonth (addMonths fromDate t.interval).y
        (addMonths fromDate t.interval).m := by
    have := Nat.min_le_right dom (daysInMonth
      (addMonths fromDate t.interval).y (addMonths fromDate t.interval).m)
    omega
  unfold setDate
  rw [addDays_within_month _ _ _ hmin]
  refine ⟨rfl, rfl, ?_⟩
  dsimp only
  have := Nat.le_min.mpr ⟨hpos, hdim⟩
  omega

/-- C6 witness: the general clamping facts instantiated on the concrete
template from Jan 31, 2026. -/
theorem C6_monthly_day_clamping_witness :
    (getNextMonthlyOccurrence tmplC6 ⟨2026, 1, 31⟩).d =
      min 31 (daysInMonth (addMonths ⟨2026, 1, 31⟩ tmplC6.interval).y
        (addMonths ⟨2026, 1, 31⟩ tmplC6.interval).m) :=
  (C6_monthly_day_clamping.1 tmplC6 ⟨2026, 1, 31⟩ 31 rfl (by decide)).2.2

/-- C9 counterexample: with `count = 0` and a pattern-matching start date the
function still returns the start date, i.e. more than `count` dates. -/
theorem C9_zero_count_counterexample :
    (calculateOccurrences tmplC9 0 []).length = 1 ∧
    ¬ (calculateOccurrences tmplC9 0 []).length ≤ 0 := by
  decide

/-- C9 (amended): `calculateOccurrences` always terminates; for every
requested `count ≥ 1` it performs at most `count * 100` advancement
iterations and returns at most `count` dates; hitting the cap yields a
(possibly shorter) list, never an error (the function is total).  For
`count = 0` a matching start date is still returned. -/
theorem C9_iteration_cap_and_bounds (t : Template) (count : Nat)
    (existing : List CDate) (hcount : 1 ≤ count) :
    (calculateOccurrencesIter t count existing).steps ≤ count * 100 ∧
    (calculateOccurrences t count existing).length ≤ count := by
  constructor
  · unfold calculateOccurrencesIter
    exact calcLoop_steps_le t count existing (count * 100) t.start_date _
  · exact calculateOccurrences_length_le t count existing hcount

/-- C9 witness: the cap and length bounds instantiated on the concrete DAILY
template with `count = 2`. -/
theorem C9_iteration_cap_and_bounds_witness :
    (calculateOccurrencesIter tmplC9 2 []).steps ≤ 200 ∧
    (calculateOccurrences tmplC9 2 []).length ≤ 2 :=
  C9_iteration_cap_and_bounds tmplC9 2 [] (by decide)

/-- C2 (code evaluation at the failing input): for the WEEKLY Mon/Wed/Fri
rule with `interval = 1` starting Monday 2026-01-05, the code produces
Mon Jan 5, Wed Jan 7, Fri Jan 9, then Mon Jan 19 and Wed Jan 21 - skipping
the Monday and Wednesday of the immediately following week (Jan 12 / Jan 14)
that the claim (and the spec's testable property) requires. -/
theorem C2_weekly_cadence_divergence :
    calculateOccurrences tmplC2 5 [] =
      [⟨2026, 1, 5⟩, ⟨2026, 1, 7⟩, ⟨2026, 1, 9⟩,
        ⟨2026, 1, 19⟩, ⟨2026, 1, 21⟩] ∧
    calculateOccurrences tmplC2 5 [] ≠
      [⟨2026, 1, 5⟩, ⟨2026, 1, 7⟩, ⟨2026, 1, 9⟩,
        ⟨2026, 1, 12⟩, ⟨2026, 1, 14⟩] := by
  decide

theorem find?_map_update (g : Template → Template)
    (hg : ∀ u, (g u).id = u.id) (tid : Nat) :
    ∀ (l : List Template) (t : Template),
      l.find? (fun u => decide (u.id = tid)) = some t →
      (l.map (fun u => if u.id = tid then g u else u)).find?
        (fun u => decide (u.id = tid)) = some (g t) := by
  intro l
  induction l with
  | nil => intro t ht; simp at ht
  | cons u rest ih =>
    intro t ht
    by_cases hu : u.id = tid
    · rw [List.find?_cons_of_pos rest (by simp [hu])] at ht
      cases ht
      rw [List.map_cons, if_pos hu]
      exact List.find?_cons_of_pos _ (by simp [hg, hu])
    · rw [List.find?_cons_of_neg rest (by simp [hu])] at ht
      rw [List.map_cons, if_neg hu]
      rw [List.find?_cons_of_neg _ (by simp [hu])]
      exact ih t ht

/-- C3 counterexample: reactivating a template that lay dormant (deactivated
after its single 2026-01-01 instance was completed, reactivated on
2026-01-10) creates a brand-new occurrence dated 2026-01-02 - strictly
before "today" - i.e. the dormant interval is backfilled, contradicting the
claim that every newly created occurrence has `occurrenceDate ≥ today`. -/
theorem C3_reactivate_backfills_counterexample :
    (⟨1, some 0, some ⟨2026, 1, 2⟩, .PENDING, 0⟩ : TaskRow) ∈
      (reactivateTemplate storeC3 0).tasks ∧
    (⟨1, some 0, some ⟨2026, 1, 2⟩, .PENDING, 0⟩ : TaskRow) ∉ storeC3.tasks ∧
    (⟨2026, 1, 2⟩ : CDate) < todayC3 := by
  decide

/-- C3 (amended): `reactivateTemplate` resumes generation from the
template's `startDate` pattern, not from "now": every task present after
reactivation either already existed or is a fresh instance of the template
whose occurrence date is on or after `startDate` and not already
materialized - with no lower bound at the current date, so dormant-period
dates are backfilled when they are still unmaterialized. -/
theorem C3_reactivate_resumes_from_start (s : Store) (tid : Nat)
    (t : Template) (hft : findTemplate s tid = some t)
    (hint : 1 ≤ t.interval) :
    ∀ tk ∈ (reactivateTemplate s tid).tasks,
      tk ∈ s.tasks ∨
      (tk.recurring_template_id = some tid ∧ s.nextTaskId ≤ tk.task_id ∧
        ∃ d, tk.occurrence_date = some d ∧ t.start_date ≤ d ∧
          d ∉ existingDatesOf s tid) := by
  intro tk htk
  unfold reactivateTemplate at htk
  rw [hft] at htk
  dsimp only at htk
  set s1 : Store :=
    { s with
      templates := s.templates.map
        (fun u => if u.id = tid then { u with is_active := true } else u) }
    with hs1
  have hft1 : findTemplate s1 tid = some { t with is_active := true } :=
    find?_map_update (fun u => { u with is_active := true }) (fun u => rfl)
      tid s.templates t hft
  rcases generate_shape s1 tid 12 with hg | ⟨t2, hft2, hact2, hocc2, hg⟩
  · rw [hg] at htk
    exact Or.inl htk
  · rw [hg] at htk
    dsimp only at htk
    rcases List.mem_append.mp htk with h | h
    · exact Or.inl h
    · obtain ⟨h1, _, _, h4, d, hd, h5⟩ := mkTasks_mem h
      have ht2 : t2 = { t with is_active := true } := by
        rw [hft1] at hft2
        exact (Option.some.injEq _ _).mp hft2.symm
      have hE : existingDatesOf s1 tid = existingDatesOf s tid := rfl
      have hstep : ∀ c, c < getNextOccurrence t2 c := by
        intro c
        exact lt_getNextOccurrence t2 (by rw [ht2]; exact hint) c
      refine Or.inr ⟨h1, h4, d, h5, ?_, ?_⟩
      · have := calculateOccurrences_ge_start t2 12 (existingDatesOf s1 tid)
          hstep d hd
        rw [ht2] at this
        exact this
      · have := calculateOccurrences_not_mem t2 12 (existingDatesOf s1 tid)
          d hd
        rw [hE] at this
        exact this

/-- C3 witness: the amended statement instantiated at a concrete dormant
template and the first freshly generated occurrence. -/
theorem C3_reactivate_resumes_from_start_witness :
    (⟨0, some 0, some ⟨2026, 3, 1⟩, .PENDING, 0⟩ : TaskRow) ∈
        storeC3w.tasks ∨
    ((⟨0, some 0, some ⟨2026, 3, 1⟩, .PENDING, 0⟩ : TaskRow
        ).recurring_template_id = some 0 ∧
      storeC3w.nextTaskId ≤ (⟨0, some 0, some ⟨2026, 3, 1⟩, .PENDING, 0⟩ :
        TaskRow).task_id ∧
      ∃ d, (⟨0, some 0, some ⟨2026, 3, 1⟩, .PENDING, 0⟩ :
          TaskRow).occurrence_date = some d ∧
        (⟨0, .DAILY, 1, none, none, ⟨2026, 3, 1⟩, none, false⟩ :
          Template).start_date ≤ d ∧
        d ∉ existingDatesOf storeC3w 0) :=
  C3_reactivate_resumes_from_start storeC3w 0
    ⟨0, .DAILY, 1, none, none, ⟨2026, 3, 1⟩, none, false⟩ rfl (by decide)
    ⟨0, some 0, some ⟨2026, 3, 1⟩, .PENDING, 0⟩ (by decide)

/-- C7 counterexample: with two active templates where processing the first
fails (its buffer call throws) and processing the second would succeed and
record its id, the sweep returns the failure with the second template never
processed - the loop has no per-template error isolation. -/
theorem C7_sweep_aborts_counterexample :
    ensureAllTemplatesHaveInstances actC7 [1, 2] [] = ([], false) ∧
    actC7 2 [] = ([2], true) := by
  decide

/-- C7 (amended): a failure in one template's `ensureInstanceBuffer` aborts
`ensureAllTemplatesHaveInstances` at that template: templates earlier in the
list are processed, and the failing template's error is returned with every
later template left unprocessed. -/
theorem C7_sweep_stops_at_first_failure {St : Type}
    (act : Nat → St → St × Bool) (ts1 : List Nat) (tid : Nat)
    (ts2 : List Nat) (s s1 s2 : St)
    (hok : ensureAllTemplatesHaveInstances act ts1 s = (s1, true))
    (hfail : act tid s1 = (s2, false)) :
    ensureAllTemplatesHaveInstances act (ts1 ++ tid :: ts2) s =
      (s2, false) := by
  induction ts1 generalizing s with
  | nil =>
    simp only [ensureAllTemplatesHaveInstances, Prod.mk.injEq] at hok
    rw [List.nil_append]
    show (let out := act tid s
      if out.2 then ensureAllTemplatesHaveInstances act ts2 out.1
      else (out.1, false)) = (s2, false)
    rw [hok.1, hfail]
    simp
  | cons t0 rest ih =>
    rw [List.cons_append]
    show (let out := act t0 s
      if out.2 then
        ensureAllTemplatesHaveInstances act (rest ++ tid :: ts2) out.1
      else (out.1, false)) = (s2, false)
    have hok2 : (let out := act t0 s
        if out.2 then ensureAllTemplatesHaveInstances act rest out.1
        else (out.1, false)) = (s1, true) := hok
    dsimp only at hok2 ⊢
    cases hb : (act t0 s).2 with
    | false =>
      rw [if_neg (by simp [hb])] at hok2
      simp at hok2
    | true =>
      rw [if_pos rfl]
      exact ih _ (by
        rw [if_pos hb] at hok2
        exact hok2)

/-- C7 witness: the amended statement at a concrete action failing on
template 3, with templates 1 and 2 processed and template 4 skipped. -/
theorem C7_sweep_stops_at_first_failure_witness :
    ensureAllTemplatesHaveInstances actC7w [1, 2, 3, 4] ([] : List Nat) =
      ([1, 2], false) :=
  C7_sweep_stops_at_first_failure actC7w [1, 2] 3 [4] [] [1, 2] [1, 2]
    (by decide) (by decide)

/-- C8 counterexample: clearing `endDate` (`end_date: null`) changes a
recurrence field, yet `updateTemplate` does not invoke the regeneration:
its result differs from the update-then-regenerate result the claim
requires (the untouched future PENDING instance survives only on the actual
code path). -/
theorem C8_null_end_date_counterexample :
    (applyUpdates
        ⟨0, .DAILY, 1, none, none, ⟨2026, 1, 1⟩, some ⟨2026, 2, 1⟩, false⟩
        updC8).end_date ≠
      (⟨0, .DAILY, 1, none, none, ⟨2026, 1, 1⟩, some ⟨2026, 2, 1⟩, false⟩ :
        Template).end_date ∧
    updateTemplate todayC8 storeC8 0 updC8 ≠
      regenerateFutureInstancesInTransaction todayC8
        { storeC8 with
          templates := storeC8.templates.map
            (fun v => if v.id = 0 then applyUpdates v updC8 else v) } 0 := by
  decide

/-- C8 (amended): `updateTemplate` invokes `regenerateFutureInstances`
exactly when one of the six recurrence fields carries a JS-truthy value:
when every supplied recurrence field is absent or null (e.g. clearing
`endDate` or `dayOfMonth`), the task table is left untouched; when some
field is truthy, the operation is the update followed by regeneration. -/
theorem C8_regeneration_trigger (today : CDate) (s : Store) (tid : Nat)
    (u : TemplateUpdates) (t : Template)
    (hft : findTemplate s tid = some t) :
    (recurrenceUpdateTruthy u = false →
      (updateTemplate today s tid u).tasks = s.tasks ∧
      (updateTemplate today s tid u).nextTaskId = s.nextTaskId) ∧
    (recurrenceUpdateTruthy u = true →
      updateTemplate today s tid u =
        regenerateFutureInstancesInTransaction today
          { s with
            templates := s.templates.map
              (fun v => if v.id = tid then applyUpdates v u else v) } tid) := by
  unfold updateTemplate
  rw [hft]
  dsimp only
  constructor
  · intro hfalse
    rw [if_neg (by simp [hfalse])]
    exact ⟨rfl, rfl⟩
  · intro htrue
    rw [if_pos htrue]

/-- C8 witness: with no truthy recurrence field the task table is unchanged;
with `interval = 2` supplied the operation equals update-then-regenerate. -/
theorem C8_regeneration_trigger_witness :
    (updateTemplate todayC8 storeC8 0 updC8n).tasks = storeC8.tasks ∧
    updateTemplate todayC8 storeC8 0 updC8w =
      regenerateFutureInstancesInTransaction todayC8
        { storeC8 with
          templates := storeC8.templates.map
            (fun v => if v.id = 0 then applyUpdates v updC8w else v) } 0 :=
  ⟨((C8_regeneration_trigger todayC8 storeC8 0 updC8n
      ⟨0, .DAILY, 1, none, none, ⟨2026, 1, 1⟩, some ⟨2026, 2, 1⟩, false⟩
      rfl).1 (by decide)).1,
   (C8_regeneration_trigger todayC8 storeC8 0 updC8w
      ⟨0, .DAILY, 1, none, none, ⟨2026, 1, 1⟩, some ⟨2026, 2, 1⟩, false⟩
      rfl).2 (by decide)⟩

/-- C5 counterexample: for an active DAILY template whose `start_date` lies
in the past, the first `ensureInstanceBuffer(t, 12)` call materializes
twelve past-dated occurrences (which do not count toward the future
buffer), and the second call materializes twelve more: the final occurrence
count after two calls (24) differs from the count after one call (12). -/
theorem C5_top_up_not_idempotent_counterexample :
    ensureInstanceBuffer todayC5 storeC5 0 12 = storeC5mid ∧
    (ensureInstanceBuffer todayC5 storeC5mid 0 12).tasks.length = 24 ∧
    storeC5mid.tasks.length = 12 := by
  decide

/-- C5 (amended): the `ensureInstanceBuffer(t, 12)` top-up is idempotent -
two successive calls leave exactly the same store as one call - provided the
template's `startDate` is not in the past (`today ≤ startOfDay(startDate)`),
its `interval ≥ 1`, and the template's occurrence dates are duplicate-free
(the database unique constraint on `(recurring_template_id,
occurrence_date)`).  Without the start-date condition the first call can
materialize past-dated occurrences that never raise the future-instance
count, and the second call generates further dates. -/
theorem C5_ensure_idempotent (today : CDate) (s : Store) (tid : Nat)
    (t : Template) (hft : findTemplate s tid = some t)
    (hint : 1 ≤ t.interval) (hstart : today ≤ t.start_date)
    (hnd : (existingDatesOf s tid).Nodup) :
    ensureInstanceBuffer today (ensureInstanceBuffer today s tid 12) tid 12 =
      ensureInstanceBuffer today s tid 12 := by
  have hstep : ∀ c, c < getNextOccurrence t c := lt_getNextOccurrence t hint
  by_cases hact : t.is_active = false
  · have h1 : ensureInstanceBuffer today s tid 12 = s := by
      unfold ensureInstanceBuffer
      rw [hft]
      dsimp only
      rw [if_pos hact]
    rw [h1]
    exact h1
  · have hactT : t.is_active = true := by
      cases h : t.is_active
      · exact absurd h hact
      · rfl
    have hens : ∀ (s2 : Store), findTemplate s2 tid = some t →
        ensureInstanceBuffer today s2 tid 12 =
          (if (s2.tasks.filter (futureInstancePred today tid)).length < 12
           then generateInstancesInTransaction s2 tid
             (12 - (s2.tasks.filter (futureInstancePred today tid)).length)
           else s2) := by
      intro s2 hft2
      unfold ensureInstanceBuffer
      rw [hft2]
      dsimp only
      rw [if_neg (by rw [hactT]; simp)]
    by_cases hf : (s.tasks.filter (futureInstancePred today tid)).length < 12
    · have h1 : ensureInstanceBuffer today s tid 12 =
          generateInstancesInTransaction s tid
            (12 - (s.tasks.filter (futureInstancePred today tid)).length) := by
        rw [hens s hft, if_pos hf]
      have hneed1 : 1 ≤
          12 - (s.tasks.filter (futureInstancePred today tid)).length := by
        omega
      rcases generate_shape s tid
          (12 - (s.tasks.filter (futureInstancePred today tid)).length)
        with hg | ⟨t2, hft2, hact2, hocc2, hg⟩
      · rw [h1, hg]
        exact h1.trans hg
      · have ht2 : t2 = t := by
          rw [hft] at hft2
          exact (Option.some.inj hft2).symm
        subst ht2
        rw [h1, hg]
        have hocc_ge_start : ∀ d ∈ calculateOccurrences t2
            (12 - (s.tasks.filter (futureInstancePred today tid)).length)
            (existingDatesOf s tid), t2.start_date ≤ d :=
          calculateOccurrences_ge_start t2 _ _ hstep
        have hocc_ge : ∀ d ∈ calculateOccurrences t2
            (12 - (s.tasks.filter (futureInstancePred today tid)).length)
            (existingDatesOf s tid), today ≤ d :=
          fun d hd => CDate.le_trans hstart (hocc_ge_start d hd)
        have hft1 : findTemplate
            { s with
              tasks := s.tasks ++ mkTasks tid s.nextTaskId
                (calculateOccurrences t2
                  (12 - (s.tasks.filter
                    (futureInstancePred today tid)).length)
                  (existingDatesOf s tid))
              nextTaskId := s.nextTaskId + (calculateOccurrences t2
                (12 - (s.tasks.filter (futureInstancePred today tid)).length)
                (existingDatesOf s tid)).length } tid = some t2 := hft
        set needed : Nat :=
          12 - (s.tasks.filter (futureInstancePred today tid)).length
          with hneeddef
        set E : List CDate := existingDatesOf s tid with hEdef
        set occ : List CDate := calculateOccurrences t2 needed E with hoccdef
        set s1 : Store :=
          { s with
            tasks := s.tasks ++ mkTasks tid s.nextTaskId occ
            nextTaskId := s.nextTaskId + occ.length }
          with hs1def
        have hE1 : existingDatesOf s1 tid = E ++ occ := by
          rw [hs1def, hEdef, hoccdef]
          exact existingDatesOf_append_mkTasks s tid s.nextTaskId _ _
        have hfut1 : (s1.tasks.filter (futureInstancePred today tid)).length =
            (s.tasks.filter (futureInstancePred today tid)).length +
              occ.length := by
          rw [hs1def]
          dsimp only
          rw [List.filter_append, List.length_append,
            mkTasks_future_length today tid occ hocc_ge s.nextTaskId]
        have hlen : occ.length ≤ needed :=
          calculateOccurrences_length_le t2 needed E hneed1
        rcases Nat.lt_or_ge occ.length needed with hshort | hfull
        · cases hbe : (calculateOccurrencesIter t2 needed E).brokeEnd
          · exfalso
            have hshortI :
                (calculateOccurrencesIter t2 needed E).dates.length < needed :=
              hshort
            have hsteps := calcLoop_fuel_exhausted t2 needed E (needed * 100)
              t2.start_date _ (calculateOccurrencesIter t2 needed E) rfl hbe
              hshortI
            have hbound := calcLoop_steps_bound t2 needed E hnd hstep
              (needed * 100) t2.start_date _
              (calculateOccurrencesIter t2 needed E) rfl
            simp only [hbe, Bool.false_eq_true, if_false] at hbound
            have he : (s.tasks.filter (futureInstancePred today tid)).length =
                (E.filter (fun e => decide (today ≤ e))).length :=
              future_filter_length today tid s.tasks
            have hm : (E.filter (fun e => decide (t2.start_date < e))).length ≤
                (E.filter (fun e => decide (today ≤ e))).length := by
              rw [← List.countP_eq_length_filter,
                ← List.countP_eq_length_filter]
              exact List.countP_mono_left (fun x _ hx => decide_eq_true
                (CDate.le_of_lt (CDate.lt_of_le_of_lt hstart
                  (of_decide_eq_true hx))))
            have hdld : (calculateOccurrencesIter t2 needed E).dates.length =
                occ.length := rfl
            omega
          · have hcomp := calcLoop_brokeEnd_complete t2 needed E hstep
              (needed * 100) t2.start_date _
              (calculateOccurrencesIter t2 needed E) rfl hbe
            have hnil : ∀ c2, calculateOccurrences t2 c2 (E ++ occ) = [] := by
              intro c2
              show (calculateOccurrencesIter t2 c2 (E ++ occ)).dates = []
              unfold calculateOccurrencesIter
              have hia2 : (if dateMatchesPattern t2 t2.start_date = true ∧
                  pastEnd t2 t2.start_date = false ∧
                  t2.start_date ∉ E ++ occ then [t2.start_date]
                else ([] : List CDate)) = [] := by
                rw [if_neg]
                rintro ⟨hA, hB, hC⟩
                have hCE : t2.start_date ∉ E :=
                  fun h => hC (List.mem_append.mpr (Or.inl h))
                exact hC (List.mem_append.mpr (Or.inr
                  (calculateOccurrences_start_mem t2 needed E ⟨hA, hB, hCE⟩)))
              dsimp only
              rw [hia2]
              refine calcLoop_all_existing t2 c2 (E ++ occ) (c2 * 100)
                t2.start_date ?_
              intro j hj hpe
              rcases hcomp j hj hpe with h | h
              · exact List.mem_append.mpr (Or.inl h)
              · exact List.mem_append.mpr (Or.inr h)
            rw [hens s1 hft1]
            split
            · unfold generateInstancesInTransaction
              rw [hft1]
              dsimp only
              rw [if_neg (by rw [hactT]; simp)]
              rw [hE1, hnil]
              rfl
            · rfl
        · have hocceq : occ.length = needed := Nat.le_antisymm hlen hfull
          rw [hens s1 hft1]
          rw [if_neg (by rw [hfut1]; omega)]
    · have h1 : ensureInstanceBuffer today s tid 12 = s := by
        rw [hens s hft, if_neg hf]
      rw [h1]
      exact h1

/-- C5 witness: idempotence instantiated on a concrete active DAILY template
whose start date equals the current date. -/
theorem C5_ensure_idempotent_witness :
    ensureInstanceBuffer todayC5 (ensureInstanceBuffer todayC5 storeC5w 0 12)
      0 12 = ensureInstanceBuffer todayC5 storeC5w 0 12 :=
  C5_ensure_idempotent todayC5 storeC5w 0
    ⟨0, .DAILY, 1, none, none, ⟨2026, 1, 20⟩, none, true⟩ rfl (by decide)
    (by decide) (by decide)
